import Mathlib

/-!
Verification of the supermusr data pipeline core against its specification.

The development shallowly embeds the Rust source:
* the digitiser-aggregator frame cache (src/digitiser-aggregator/src/frame/),
* the nexus-writer event-data group, run parameters and run matching
  (src/nexus-writer/src/),
* the trace-to-events fixed-threshold discriminator driver
  (src/trace-to-events/src/channels.rs).

Machine integers are modelled by Nat / Int (no overflow is reachable in the
statements below: digitiser ids are u8, lengths are usize, timestamps are
chrono DateTime values which are totally ordered and are modelled by Int).
Rust Instant values are modelled by Nat; functions that read Instant::now()
or Utc::now() receive the current time as an explicit argument.
Fallible Rust functions returning Result are modelled with Except; methods
mutating &mut self and returning Result<()> are modelled as functions
returning the pair (Except error Unit) × (new state), so that the state on
the error paths is the state the Rust code leaves behind (unchanged).
-/

namespace Aggregator

/-- Modelled from the spec: the struct FrameMetadata of
src/streaming-types (file frame_metadata.rs is absent from the sources);
"Frame Metadata. Uniquely identifies a frame across digitisers:
(timestamp, frame_number, period_number) together with protons_per_pulse,
running, and veto_flags."  The timestamp (chrono DateTime<Utc>) is modelled
by Int, veto_flags (u16) and the numeric fields by Nat. -/
structure FrameMetadata where
  timestamp : Int
  period_number : Nat
  protons_per_pulse : Nat
  running : Bool
  frame_number : Nat
  veto_flags : Nat
  deriving DecidableEq, Repr

/-- Modelled from the spec: FrameMetadata::equals_ignoring_veto_flags
(declared in the absent file frame_metadata.rs); "Two metadata values are
considered the same frame iff all fields except veto_flags match." -/
def FrameMetadata.equals_ignoring_veto_flags (a b : FrameMetadata) : Bool :=
  a.timestamp == b.timestamp && a.period_number == b.period_number &&
    a.protons_per_pulse == b.protons_per_pulse && a.running == b.running &&
    a.frame_number == b.frame_number

/-- struct EventData of src/digitiser-aggregator/src/data/event.rs:
three parallel vectors time (u32 ns), intensity, channel. -/
structure EventData where
  time : List Nat
  intensity : List Nat
  channel : List Nat
  deriving DecidableEq, Repr

/-- EventData::event_count: "Returns the number of events in the list.  This
assumes all fields are of equal length." -/
def EventData.event_count (d : EventData) : Nat := d.time.length

/-- Well-formedness assumed by the source ("The guarantee that all fields are
of equal length depends on the inputs having fields of equal length"). -/
def EventData.wf (d : EventData) : Prop :=
  d.time.length = d.intensity.length ∧ d.time.length = d.channel.length

instance (d : EventData) : Decidable d.wf := by
  unfold EventData.wf; infer_instance

/-- type DigitiserData<T> = Vec<(DigitizerId, T)> of
src/digitiser-aggregator/src/data/mod.rs (DigitizerId is u8, modelled Nat). -/
abbrev DigitiserData (D : Type) := List (Nat × D)

/-- trait Accumulate<D> of src/digitiser-aggregator/src/data/mod.rs. -/
class Accumulate (D : Type) where
  accumulate : DigitiserData D → D

/-- impl Accumulate<EventData> for DigitiserData<EventData> of
src/digitiser-aggregator/src/data/event.rs: a fold appending the three
vectors of each contribution in order onto the accumulator. -/
def accumulateEventData (data : DigitiserData EventData) : EventData :=
  data.foldl
    (fun acc value =>
      { time := acc.time ++ value.2.time
        intensity := acc.intensity ++ value.2.intensity
        channel := acc.channel ++ value.2.channel })
    { time := [], intensity := [], channel := [] }

instance : Accumulate EventData := ⟨accumulateEventData⟩

/-- struct PartialFrame<D> of src/digitiser-aggregator/src/frame/partial.rs
(the tracing span field is omitted: it carries no data).  The expiry Instant
is modelled by Nat. -/
structure PartialFrame (D : Type) where
  complete : Bool
  expiry : Nat
  metadata : FrameMetadata
  digitiser_data : DigitiserData D
  deriving DecidableEq, Repr

/-- PartialFrame::new: expiry = Instant::now() + ttl; the current instant is
the explicit argument now. -/
def PartialFrame.new (D : Type) (ttl : Nat) (now : Nat) (metadata : FrameMetadata) :
    PartialFrame D :=
  { complete := false, expiry := now + ttl, metadata := metadata, digitiser_data := [] }

/-- PartialFrame::digitiser_ids: the collected ids, sorted. -/
def PartialFrame.digitiser_ids {D : Type} (f : PartialFrame D) : List Nat :=
  List.insertionSort (· ≤ ·) (f.digitiser_data.map Prod.fst)

/-- PartialFrame::set_completion_status: sets complete when the sorted id
list equals expected_digitisers. -/
def PartialFrame.set_completion_status {D : Type} (f : PartialFrame D)
    (expected_digitisers : List Nat) : PartialFrame D :=
  if f.digitiser_ids = expected_digitisers then { f with complete := true } else f

/-- PartialFrame::has_digitiser_id. -/
def PartialFrame.has_digitiser_id {D : Type} (f : PartialFrame D) (did : Nat) : Bool :=
  f.digitiser_data.any (fun p => did == p.1)

/-- PartialFrame::push: appends the contribution. -/
def PartialFrame.push {D : Type} (f : PartialFrame D) (did : Nat) (data : D) :
    PartialFrame D :=
  { f with digitiser_data := f.digitiser_data ++ [(did, data)] }

/-- PartialFrame::push_veto_flags: ORs the flags into the metadata. -/
def PartialFrame.push_veto_flags {D : Type} (f : PartialFrame D) (veto_flags : Nat) :
    PartialFrame D :=
  { f with metadata := { f.metadata with veto_flags := f.metadata.veto_flags ||| veto_flags } }

/-- PartialFrame::is_complete. -/
def PartialFrame.is_complete {D : Type} (f : PartialFrame D) : Bool := f.complete

/-- PartialFrame::is_expired: "Returns true if and only if the current time
instant is greater than self.expiry" (strict). -/
def PartialFrame.is_expired {D : Type} (f : PartialFrame D) (now : Nat) : Bool :=
  now > f.expiry

/-- Modelled from the spec: enum RejectMessageError (declared in the absent
file src/digitiser-aggregator/src/frame/mod.rs);
"push(...) → Ok | TimestampTooEarly | IdAlreadyPresent". -/
inductive RejectMessageError where
  | TimestampTooEarly
  | IdAlreadyPresent
  deriving DecidableEq, Repr

/-- struct AggregatedFrame<D> of
src/digitiser-aggregator/src/frame/aggregated.rs (span omitted). -/
structure AggregatedFrame (D : Type) where
  metadata : FrameMetadata
  complete : Bool
  digitiser_ids : List Nat
  digitiser_data : D
  deriving DecidableEq, Repr

/-- impl From<PartialFrame<D>> for AggregatedFrame<D>. -/
def AggregatedFrame.of_partial {D : Type} [Accumulate D] (f : PartialFrame D) :
    AggregatedFrame D :=
  { metadata := f.metadata
    complete := f.is_complete
    digitiser_ids := f.digitiser_ids
    digitiser_data := Accumulate.accumulate f.digitiser_data }

/-- struct FrameCache<D> of src/digitiser-aggregator/src/frame/cache.rs. -/
structure FrameCache (D : Type) where
  ttl : Nat
  expected_digitisers : List Nat
  latest_timestamp_dispatched : Option Int
  frames : List (PartialFrame D)
  deriving DecidableEq, Repr

/-- FrameCache::new. -/
def FrameCache.new (D : Type) (ttl : Nat) (expected_digitisers : List Nat) :
    FrameCache D :=
  { ttl := ttl, expected_digitisers := expected_digitisers
    latest_timestamp_dispatched := none, frames := [] }

/-- The frame-list traversal inside FrameCache::push: find the first partial
frame matching the metadata ignoring veto flags; if it already has the id,
error IdAlreadyPresent; if found, push the contribution, OR the veto flags
and recompute completion; if no frame matches, push a new partial frame at
the back. -/
def pushIntoFrames {D : Type} (ttl : Nat) (expected_digitisers : List Nat)
    (now : Nat) (did : Nat) (metadata : FrameMetadata) (data : D) :
    List (PartialFrame D) → Except RejectMessageError (List (PartialFrame D))
  | [] => .ok [(PartialFrame.new D ttl now metadata).push did data]
  | f :: rest =>
    if f.metadata.equals_ignoring_veto_flags metadata then
      if f.has_digitiser_id did then
        .error .IdAlreadyPresent
      else
        .ok ((((f.push did data).push_veto_flags metadata.veto_flags).set_completion_status
          expected_digitisers) :: rest)
    else
      match pushIntoFrames ttl expected_digitisers now did metadata data rest with
      | .ok rest' => .ok (f :: rest')
      | .error e => .error e

/-- The accepted-timestamp branch of FrameCache::push. -/
def FrameCache.push_accepted {D : Type} (c : FrameCache D) (now : Nat) (did : Nat)
    (metadata : FrameMetadata) (data : D) :
    Except RejectMessageError Unit × FrameCache D :=
  match pushIntoFrames c.ttl c.expected_digitisers now did metadata data c.frames with
  | .ok fs => (.ok (), { c with frames := fs })
  | .error e => (.error e, c)

/-- FrameCache::push of src/digitiser-aggregator/src/frame/cache.rs.
The first component is the returned Result, the second the cache after the
call (unchanged on the early-return error paths, exactly as in the source). -/
def FrameCache.push {D : Type} (c : FrameCache D) (now : Nat) (did : Nat)
    (metadata : FrameMetadata) (data : D) :
    Except RejectMessageError Unit × FrameCache D :=
  match c.latest_timestamp_dispatched with
  | some latest =>
    if metadata.timestamp ≤ latest then
      (.error .TimestampTooEarly, c)
    else
      c.push_accepted now did metadata data
  | none => c.push_accepted now did metadata data

/-- FrameCache::poll of src/digitiser-aggregator/src/frame/cache.rs:
inspects only the front frame; pops it when complete or expired, advancing
latest_timestamp_dispatched to its timestamp. -/
def FrameCache.poll {D : Type} [Accumulate D] (c : FrameCache D) (now : Nat) :
    Option (AggregatedFrame D) × FrameCache D :=
  match c.frames with
  | [] => (none, c)
  | f :: rest =>
    if f.is_complete || f.is_expired now then
      (some (AggregatedFrame.of_partial f),
        { c with frames := rest, latest_timestamp_dispatched := some f.metadata.timestamp })
    else
      (none, c)

/-- FrameCache::get_num_partial_frames. -/
def FrameCache.get_num_partial_frames {D : Type} (c : FrameCache D) : Nat :=
  c.frames.length

/-- A call made on a frame cache: either FrameCache::push or
FrameCache::poll, with the instant at which the call is made. -/
inductive CacheOp (D : Type) where
  | push (now : Nat) (did : Nat) (metadata : FrameMetadata) (data : D)
  | poll (now : Nat)
  deriving Repr

/-- Runs a sequence of cache calls, returning the final cache and the list
of aggregated frames returned by the poll calls, in order of emission. -/
def FrameCache.run_ops {D : Type} [Accumulate D] (c : FrameCache D) :
    List (CacheOp D) → FrameCache D × List (AggregatedFrame D)
  | [] => (c, [])
  | .push now did metadata data :: ops =>
    ((c.push now did metadata data).2.run_ops ops)
  | .poll now :: ops =>
    let p := c.poll now
    let r := p.2.run_ops ops
    (r.1, p.1.toList ++ r.2)

end Aggregator

namespace Aggregator

/-- The accumulation fold of impl Accumulate<EventData> in closed form:
each of the three vectors is the concatenation of the contributions'
corresponding vectors, in contribution order. -/
theorem accumulateEventData_eq (l : DigitiserData EventData) :
    accumulateEventData l =
      { time := (l.map (fun p => p.2.time)).flatten
        intensity := (l.map (fun p => p.2.intensity)).flatten
        channel := (l.map (fun p => p.2.channel)).flatten } := by
  have general : ∀ (l : DigitiserData EventData) (acc : EventData),
      l.foldl (fun acc value =>
        { time := acc.time ++ value.2.time
          intensity := acc.intensity ++ value.2.intensity
          channel := acc.channel ++ value.2.channel }) acc =
      { time := acc.time ++ (l.map (fun p => p.2.time)).flatten
        intensity := acc.intensity ++ (l.map (fun p => p.2.intensity)).flatten
        channel := acc.channel ++ (l.map (fun p => p.2.channel)).flatten } := by
    intro l
    induction l with
    | nil => intro acc; simp
    | cons p t ih => intro acc; simp [ih, List.append_assoc]
  simpa [accumulateEventData] using general l { time := [], intensity := [], channel := [] }

/-- FrameCache::push never changes latest_timestamp_dispatched. -/
theorem push_latest {D : Type} (c : FrameCache D) (now did : Nat)
    (metadata : FrameMetadata) (data : D) :
    (c.push now did metadata data).2.latest_timestamp_dispatched =
      c.latest_timestamp_dispatched := by
  obtain ⟨cttl, cexp, clatest, cframes⟩ := c
  unfold FrameCache.push FrameCache.push_accepted
  rcases clatest with _ | t
  · rcases h : pushIntoFrames cttl cexp now did metadata data cframes <;> simp [h]
  · by_cases hle : metadata.timestamp ≤ t
    · simp [hle]
    · simp only [hle, if_false]
      rcases h : pushIntoFrames cttl cexp now did metadata data cframes <;> simp [h]

/-- FrameCache::push never changes ttl or the expected digitiser list. -/
theorem push_ttl_expected {D : Type} (c : FrameCache D) (now did : Nat)
    (metadata : FrameMetadata) (data : D) :
    (c.push now did metadata data).2.ttl = c.ttl ∧
      (c.push now did metadata data).2.expected_digitisers = c.expected_digitisers := by
  obtain ⟨cttl, cexp, clatest, cframes⟩ := c
  unfold FrameCache.push FrameCache.push_accepted
  rcases clatest with _ | t
  · rcases h : pushIntoFrames cttl cexp now did metadata data cframes <;> simp [h]
  · by_cases hle : metadata.timestamp ≤ t
    · simp [hle]
    · simp only [hle, if_false]
      rcases h : pushIntoFrames cttl cexp now did metadata data cframes <;> simp [h]

/-- FrameCache::poll never changes ttl or the expected digitiser list. -/
theorem poll_ttl_expected {D : Type} [Accumulate D] (c : FrameCache D) (now : Nat) :
    (c.poll now).2.ttl = c.ttl ∧
      (c.poll now).2.expected_digitisers = c.expected_digitisers := by
  obtain ⟨cttl, cexp, clatest, cframes⟩ := c
  unfold FrameCache.poll
  rcases cframes with _ | ⟨f, rest⟩
  · exact ⟨rfl, rfl⟩
  · by_cases h : (f.is_complete || f.is_expired now) = true
    · simp [h]
    · simp [h]

/-- The frame-list traversal of FrameCache::push errors exactly when the
first metadata-matching frame already holds the digitiser id, and the only
error it produces is IdAlreadyPresent. -/
theorem pushIntoFrames_error_iff {D : Type} (ttl : Nat) (exp : List Nat)
    (now did : Nat) (metadata : FrameMetadata) (data : D)
    (frames : List (PartialFrame D)) (e : RejectMessageError) :
    pushIntoFrames ttl exp now did metadata data frames = .error e ↔
      (e = .IdAlreadyPresent ∧
        ∃ f, frames.find? (fun f => f.metadata.equals_ignoring_veto_flags metadata) = some f ∧
          f.has_digitiser_id did = true) := by
  induction frames with
  | nil => simp [pushIntoFrames]
  | cons f rest ih =>
    by_cases hm : f.metadata.equals_ignoring_veto_flags metadata = true
    · by_cases hd : f.has_digitiser_id did = true
      · simp [pushIntoFrames, hm, hd, List.find?_cons_of_pos _ hm]
        exact eq_comm
      · simp [pushIntoFrames, hm, hd, List.find?_cons_of_pos _ hm]
    · rw [List.find?_cons_of_neg
        (p := fun f => f.metadata.equals_ignoring_veto_flags metadata) rest hm]
      rcases hp : pushIntoFrames ttl exp now did metadata data rest with fs | e'
      · rw [hp] at ih
        simp only [pushIntoFrames, hm, if_false, hp]
        simp at ih ⊢
        exact ih
      · rw [hp] at ih
        simp only [pushIntoFrames, hm, if_false, hp]
        simp at ih ⊢
        exact ih

end Aggregator

namespace Aggregator

/-- C2: FrameCache::push returns TimestampTooEarly iff a frame has been
dispatched and the metadata timestamp is not strictly greater than the
latest dispatched timestamp; it returns IdAlreadyPresent iff the timestamp
is accepted and the first partial frame whose metadata matches ignoring
veto flags already contains the digitiser id; otherwise it returns Ok; and
on either error the cache state is unchanged. -/
theorem C2_push_error_semantics {D : Type} (c : FrameCache D) (now did : Nat)
    (metadata : FrameMetadata) (data : D) :
    ((c.push now did metadata data).1 = .error .TimestampTooEarly ↔
      ∃ t, c.latest_timestamp_dispatched = some t ∧ metadata.timestamp ≤ t) ∧
    ((c.push now did metadata data).1 = .error .IdAlreadyPresent ↔
      (¬ ∃ t, c.latest_timestamp_dispatched = some t ∧ metadata.timestamp ≤ t) ∧
        ∃ f, c.frames.find?
            (fun f => f.metadata.equals_ignoring_veto_flags metadata) = some f ∧
          f.has_digitiser_id did = true) ∧
    ((c.push now did metadata data).1 = .ok () ↔
      (¬ ∃ t, c.latest_timestamp_dispatched = some t ∧ metadata.timestamp ≤ t) ∧
        ¬ ∃ f, c.frames.find?
            (fun f => f.metadata.equals_ignoring_veto_flags metadata) = some f ∧
          f.has_digitiser_id did = true) ∧
    (∀ e, (c.push now did metadata data).1 = .error e →
      (c.push now did metadata data).2 = c) := by
  obtain ⟨cttl, cexp, clatest, cframes⟩ := c
  have herr := pushIntoFrames_error_iff (D := D) cttl cexp now did metadata data cframes
  rcases clatest with _ | t
  · rcases hp : pushIntoFrames cttl cexp now did metadata data cframes with e' | fs
    · obtain ⟨he, hex⟩ := (herr e').mp hp
      subst he
      simp [FrameCache.push, FrameCache.push_accepted, hp, hex]
    · have hno : ¬ ∃ f, cframes.find?
          (fun f => f.metadata.equals_ignoring_veto_flags metadata) = some f ∧
            f.has_digitiser_id did = true := by
        intro hex
        have h2 := (herr .IdAlreadyPresent).mpr ⟨rfl, hex⟩
        rw [hp] at h2
        cases h2
      simp [FrameCache.push, FrameCache.push_accepted, hp, hno]
  · by_cases hle : metadata.timestamp ≤ t
    · simp [FrameCache.push, hle]
    · have htno : ¬ ∃ u, some t = some u ∧ metadata.timestamp ≤ u := by
        rintro ⟨u, hu, hut⟩
        injection hu with hu
        exact hle (hu ▸ hut)
      rcases hp : pushIntoFrames cttl cexp now did metadata data cframes with e' | fs
      · obtain ⟨he, hex⟩ := (herr e').mp hp
        subst he
        simp [FrameCache.push, FrameCache.push_accepted, hle, hp, hex, htno]
      · have hno : ¬ ∃ f, cframes.find?
            (fun f => f.metadata.equals_ignoring_veto_flags metadata) = some f ∧
              f.has_digitiser_id did = true := by
          intro hex
          have h2 := (herr .IdAlreadyPresent).mpr ⟨rfl, hex⟩
          rw [hp] at h2
          cases h2
        simp [FrameCache.push, FrameCache.push_accepted, hle, hp, hno, htno]

/-- A sample metadata value used by the concrete witnesses below. -/
def mdSample (ts : Int) (fn : Nat) : FrameMetadata :=
  { timestamp := ts, period_number := 1, protons_per_pulse := 8, running := true,
    frame_number := fn, veto_flags := 0 }

/-- A sample event list used by the concrete witnesses below. -/
def edSample : EventData := { time := [1, 2], intensity := [3, 4], channel := [5, 6] }

/-- Witness for C2: on the empty cache a push is accepted, by the third
conjunct of the characterisation. -/
theorem C2_push_error_semantics_witness :
    ((FrameCache.new EventData 100 [0, 1]).push 0 0 (mdSample 10 1) edSample).1 =
      .ok () := by
  have h := C2_push_error_semantics (FrameCache.new EventData 100 [0, 1]) 0 0
    (mdSample 10 1) edSample
  exact h.2.2.1.mpr ⟨by simp [FrameCache.new], by simp [FrameCache.new]⟩

end Aggregator

namespace Aggregator

/-- C3: every aggregated frame returned by FrameCache::poll has its three
event vectors of one common length, equal to the sum of the lengths of the
contributions pushed into the partial frame; the vectors are the
concatenations of the contributions in contribution-insertion order; and
digitiser_ids is the sorted list of contributing digitiser ids. -/
theorem C3_aggregated_frame_shape (c : FrameCache EventData) (now : Nat)
    (A : AggregatedFrame EventData) (c' : FrameCache EventData)
    (f : PartialFrame EventData) (rest : List (PartialFrame EventData))
    (hf : c.frames = f :: rest)
    (hwf : ∀ p ∈ f.digitiser_data, (p.2).wf)
    (hpoll : c.poll now = (some A, c')) :
    A.digitiser_data.time.length = A.digitiser_data.intensity.length ∧
    A.digitiser_data.time.length = A.digitiser_data.channel.length ∧
    A.digitiser_data.time.length =
      (f.digitiser_data.map (fun p => p.2.event_count)).sum ∧
    A.digitiser_data.time = (f.digitiser_data.map (fun p => p.2.time)).flatten ∧
    A.digitiser_data.intensity =
      (f.digitiser_data.map (fun p => p.2.intensity)).flatten ∧
    A.digitiser_data.channel = (f.digitiser_data.map (fun p => p.2.channel)).flatten ∧
    List.Sorted (· ≤ ·) A.digitiser_ids ∧
    A.digitiser_ids.Perm (f.digitiser_data.map Prod.fst) := by
  have hA : A = AggregatedFrame.of_partial f := by
    obtain ⟨cttl, cexp, clatest, cframes⟩ := c
    simp only at hf
    subst hf
    simp only [FrameCache.poll] at hpoll
    by_cases hc : (f.is_complete || f.is_expired now) = true
    · rw [if_pos hc] at hpoll
      have h1 := congrArg Prod.fst hpoll
      simpa using h1.symm
    · rw [if_neg hc] at hpoll
      have h1 := congrArg Prod.fst hpoll
      simp at h1
  subst hA
  have hacc : (AggregatedFrame.of_partial f).digitiser_data =
      accumulateEventData f.digitiser_data := rfl
  rw [hacc, accumulateEventData_eq]
  refine ⟨?_, ?_, ?_, rfl, rfl, rfl, ?_, ?_⟩
  · simp only [List.length_flatten, List.map_map]
    refine congrArg List.sum (List.map_congr_left ?_)
    intro p hp
    exact (hwf p hp).1
  · simp only [List.length_flatten, List.map_map]
    refine congrArg List.sum (List.map_congr_left ?_)
    intro p hp
    exact (hwf p hp).2
  · simp only [List.length_flatten, List.map_map]
    rfl
  · exact List.sorted_insertionSort (· ≤ ·) (f.digitiser_data.map Prod.fst)
  · exact List.perm_insertionSort (· ≤ ·) (f.digitiser_data.map Prod.fst)

/-- A concrete complete partial frame with two contributions. -/
def C3frame : PartialFrame EventData :=
  ⟨true, 100, mdSample 10 1, [(1, edSample), (0, edSample)]⟩

/-- A concrete cache holding C3frame. -/
def C3cache : FrameCache EventData := ⟨100, [0, 1], none, [C3frame]⟩

/-- Witness for C3: a concrete two-contribution frame polled out complete. -/
theorem C3_aggregated_frame_shape_witness :
    (C3cache.poll 0).1.map (fun A => A.digitiser_data.time.length) = some 4 ∧
    (C3cache.poll 0).1.map (fun A => A.digitiser_ids) = some [0, 1] := by
  have h := C3_aggregated_frame_shape C3cache 0
    (AggregatedFrame.of_partial C3frame) (C3cache.poll 0).2 C3frame []
    rfl (by decide) rfl
  constructor
  · show some (AggregatedFrame.of_partial C3frame).digitiser_data.time.length = some 4
    rw [h.2.2.1]
    decide
  · decide

/-- A concrete cache with ttl 100 holding one incomplete partial frame
created at instant 0 (so its expiry instant is exactly 100). -/
def C4cache : FrameCache EventData :=
  ((FrameCache.new EventData 100 [0, 1]).push 0 0 (mdSample 10 1) edSample).2

/-- C4 counterexample: the cached incomplete frame has expiry exactly 100,
yet poll at instant 100 does not dispatch it (PartialFrame::is_expired is
strict: now > expiry), contradicting the claim that a poll at the exact
expiry instant dispatches the frame. -/
theorem C4_counterexample :
    C4cache.frames.map (fun f => f.expiry) = [100] ∧
    C4cache.frames.map (fun f => f.complete) = [false] ∧
    (C4cache.poll 100).1 = none := by
  exact ⟨rfl, rfl, rfl⟩

/-- C4 amended: a poll dispatches the (incomplete) front partial frame if
and only if it is performed strictly after the frame's expiry instant;
at the exact expiry instant the frame is not dispatched. -/
theorem C4_amended_poll_after_expiry {D : Type} [Accumulate D]
    (c : FrameCache D) (now : Nat) (f : PartialFrame D)
    (rest : List (PartialFrame D)) (hf : c.frames = f :: rest)
    (hcomp : f.complete = false) :
    ((c.poll now).1.isSome ↔ now > f.expiry) ∧
    (now > f.expiry → (c.poll now).1 = some (AggregatedFrame.of_partial f)) := by
  obtain ⟨cttl, cexp, clatest, cframes⟩ := c
  simp only at hf
  subst hf
  have hic : f.is_complete = false := hcomp
  by_cases hexp : now > f.expiry
  · have hb : (f.is_complete || f.is_expired now) = true := by
      simp [hic, PartialFrame.is_expired, hexp]
    simp only [FrameCache.poll, if_pos hb]
    simp [hexp]
  · have hb : ¬ (f.is_complete || f.is_expired now) = true := by
      simp [hic, PartialFrame.is_expired, hexp]
    simp only [FrameCache.poll, if_neg hb]
    simp [hexp]

/-- Witness for C4 amended: the concrete cache above, polled at 101. -/
theorem C4_amended_poll_after_expiry_witness :
    (C4cache.poll 101).1.isSome = true ∧ (C4cache.poll 100).1.isSome = false := by
  have h := C4_amended_poll_after_expiry C4cache 101
    ⟨false, 100, mdSample 10 1, [(0, edSample)]⟩ [] (by decide) rfl
  have h2 := C4_amended_poll_after_expiry C4cache 100
    ⟨false, 100, mdSample 10 1, [(0, edSample)]⟩ [] (by decide) rfl
  constructor
  · rw [h.1]
    decide
  · rw [Bool.eq_false_iff]
    intro hs
    have h3 := h2.1.mp (by simpa using hs)
    exact absurd h3 (by decide)

end Aggregator

namespace Aggregator

/-- The merge path of FrameCache::push does not change the frame's
timestamp. -/
theorem merged_metadata_timestamp {D : Type} (f : PartialFrame D) (did : Nat)
    (data : D) (v : Nat) (exp : List Nat) :
    ((((f.push did data).push_veto_flags v).set_completion_status exp)).metadata.timestamp
      = f.metadata.timestamp := by
  unfold PartialFrame.set_completion_status PartialFrame.push_veto_flags PartialFrame.push
  split <;> rfl

/-- On success, the frame-list traversal of FrameCache::push either merged
into a matching frame (leaving the queue's timestamps unchanged) or, when
no cached frame matches, appended a new frame carrying the pushed
timestamp at the back. -/
theorem pushIntoFrames_ok_timestamps {D : Type} (ttl : Nat) (exp : List Nat)
    (now did : Nat) (metadata : FrameMetadata) (data : D) :
    ∀ (frames fs : List (PartialFrame D)),
      pushIntoFrames ttl exp now did metadata data frames = .ok fs →
      (fs.map (fun f => f.metadata.timestamp) =
          frames.map (fun f => f.metadata.timestamp) ∧
        frames.any (fun f => f.metadata.equals_ignoring_veto_flags metadata) = true) ∨
      (fs.map (fun f => f.metadata.timestamp) =
          frames.map (fun f => f.metadata.timestamp) ++ [metadata.timestamp] ∧
        frames.any (fun f => f.metadata.equals_ignoring_veto_flags metadata) = false) := by
  intro frames
  induction frames with
  | nil =>
    intro fs h
    right
    simp only [pushIntoFrames] at h
    injection h with h
    subst h
    simp [PartialFrame.new, PartialFrame.push]
  | cons f rest ih =>
    intro fs h
    by_cases hm : f.metadata.equals_ignoring_veto_flags metadata = true
    · by_cases hd : f.has_digitiser_id did = true
      · simp [pushIntoFrames, hm, hd] at h
      · simp only [pushIntoFrames, hm, if_true, hd, if_false] at h
        injection h with h
        subst h
        left
        constructor
        · simp [merged_metadata_timestamp]
        · simp [hm]
    · simp only [pushIntoFrames, hm, if_false] at h
      rcases hp : pushIntoFrames ttl exp now did metadata data rest with e' | rest'
      · rw [hp] at h
        cases h
      · rw [hp] at h
        injection h with h
        subst h
        rcases ih rest' hp with ⟨hmap, hany⟩ | ⟨hmap, hany⟩
        · left
          refine ⟨by simp [hmap], by simp [hany]⟩
        · right
          refine ⟨by simp [hmap], by simp [hm, hany]⟩

/-- The timestamps of the partial frames in the cache, in queue order. -/
def FrameCache.frame_timestamps {D : Type} (c : FrameCache D) : List Int :=
  c.frames.map (fun f => f.metadata.timestamp)

/-- The cache well-ordering maintained under the arrival discipline below:
cached frame timestamps strictly increase from front to back, and all
exceed the latest dispatched timestamp. -/
def InvC1 {D : Type} (c : FrameCache D) : Prop :=
  List.Pairwise (· < ·) c.frame_timestamps ∧
  ∀ ts ∈ c.frame_timestamps, ∀ t, c.latest_timestamp_dispatched = some t → t < ts

/-- The spec's "normal conditions" arrival discipline along a call trace:
whenever a push does not merge into an already-cached frame (no cached
metadata matches it ignoring veto flags), its timestamp strictly exceeds
the timestamps of all currently cached frames. -/
def orderedArrivals {D : Type} [Accumulate D] (c : FrameCache D) :
    List (CacheOp D) → Bool
  | [] => true
  | .push now did metadata data :: ops =>
    (c.frames.any (fun f => f.metadata.equals_ignoring_veto_flags metadata) ||
      c.frames.all (fun f => decide (f.metadata.timestamp < metadata.timestamp))) &&
    orderedArrivals (c.push now did metadata data).2 ops
  | .poll now :: ops => orderedArrivals (c.poll now).2 ops

/-- FrameCache::push preserves the well-ordering invariant under the
arrival discipline's side condition for this push. -/
theorem push_InvC1 {D : Type} (c : FrameCache D) (now did : Nat)
    (metadata : FrameMetadata) (data : D) (hInv : InvC1 c)
    (hcond : (c.frames.any (fun f => f.metadata.equals_ignoring_veto_flags metadata) ||
      c.frames.all (fun f => decide (f.metadata.timestamp < metadata.timestamp))) = true) :
    InvC1 (c.push now did metadata data).2 := by
  obtain ⟨cttl, cexp, clatest, cframes⟩ := c
  obtain ⟨hpw, hlt⟩ := hInv
  simp only [FrameCache.frame_timestamps] at hpw hlt
  have haccept : ∀ (fs : List (PartialFrame D)),
      pushIntoFrames cttl cexp now did metadata data cframes = .ok fs →
      (∀ t, clatest = some t → t < metadata.timestamp) →
      InvC1 ⟨cttl, cexp, clatest, fs⟩ := by
    intro fs hp hacc
    rcases pushIntoFrames_ok_timestamps cttl cexp now did metadata data cframes fs hp with
      ⟨hmap, _⟩ | ⟨hmap, hany⟩
    · exact ⟨by simpa [FrameCache.frame_timestamps, hmap] using hpw,
        by simpa [FrameCache.frame_timestamps, hmap] using hlt⟩
    · have hall : ∀ f ∈ cframes, f.metadata.timestamp < metadata.timestamp := by
        rcases Bool.or_eq_true_iff.mp hcond with hany' | hall'
        · rw [hany] at hany'
          cases hany'
        · intro f hf
          simpa using List.all_eq_true.mp hall' f hf
      constructor
      · rw [FrameCache.frame_timestamps]
        simp only [hmap]
        rw [List.pairwise_append]
        refine ⟨hpw, by simp, ?_⟩
        intro a ha b hb
        simp only [List.mem_singleton] at hb
        subst hb
        obtain ⟨f, hf, rfl⟩ := List.mem_map.mp ha
        exact hall f hf
      · rw [FrameCache.frame_timestamps]
        simp only [hmap]
        intro ts hts t ht
        rcases List.mem_append.mp hts with hin | hnew
        · exact hlt ts hin t ht
        · simp only [List.mem_singleton] at hnew
          subst hnew
          exact hacc t ht
  rcases clatest with _ | t
  · rcases hp : pushIntoFrames cttl cexp now did metadata data cframes with e' | fs
    · simp only [FrameCache.push, FrameCache.push_accepted, hp]
      exact ⟨hpw, hlt⟩
    · simp only [FrameCache.push, FrameCache.push_accepted, hp]
      exact haccept fs hp (by intro t ht; cases ht)
  · by_cases hle : metadata.timestamp ≤ t
    · simp only [FrameCache.push, if_pos hle]
      exact ⟨hpw, hlt⟩
    · rcases hp : pushIntoFrames cttl cexp now did metadata data cframes with e' | fs
      · simp only [FrameCache.push, if_neg hle, FrameCache.push_accepted, hp]
        exact ⟨hpw, hlt⟩
      · simp only [FrameCache.push, if_neg hle, FrameCache.push_accepted, hp]
        refine haccept fs hp ?_
        intro u hu
        injection hu with hu
        subst hu
        omega

/-- Under the arrival discipline, running any call trace from a
well-ordered cache yields aggregated frames whose timestamps strictly
increase in emission order and all exceed the starting latest dispatched
timestamp. -/
theorem run_ops_pairwise {D : Type} [Accumulate D] :
    ∀ (ops : List (CacheOp D)) (c : FrameCache D), InvC1 c →
      orderedArrivals c ops = true →
      List.Pairwise (· < ·) ((c.run_ops ops).2.map (fun a => a.metadata.timestamp)) ∧
      (∀ A ∈ (c.run_ops ops).2, ∀ t, c.latest_timestamp_dispatched = some t →
        t < A.metadata.timestamp) := by
  intro ops
  induction ops with
  | nil =>
    intro c _ _
    simp [FrameCache.run_ops]
  | cons op ops ih =>
    intro c hInv hord
    cases op with
    | push now did metadata data =>
      simp only [orderedArrivals, Bool.and_eq_true] at hord
      obtain ⟨hcond, hord'⟩ := hord
      have hInv' := push_InvC1 c now did metadata data hInv hcond
      have hmain := ih _ hInv' hord'
      simp only [FrameCache.run_ops]
      refine ⟨hmain.1, ?_⟩
      intro A hA t ht
      refine hmain.2 A hA t ?_
      rw [push_latest]
      exact ht
    | poll now =>
      simp only [orderedArrivals] at hord
      obtain ⟨cttl, cexp, clatest, cframes⟩ := c
      obtain ⟨hpw, hlt⟩ := hInv
      simp only [FrameCache.frame_timestamps] at hpw hlt
      rcases cframes with _ | ⟨f, rest⟩
      · simp only [FrameCache.poll] at hord ⊢
        have hmain := ih ⟨cttl, cexp, clatest, []⟩ ⟨by simp [FrameCache.frame_timestamps],
          by simp [FrameCache.frame_timestamps]⟩ hord
        simp only [FrameCache.run_ops, FrameCache.poll]
        simpa using hmain
      · by_cases hc : (f.is_complete || f.is_expired now) = true
        · simp only [FrameCache.poll, if_pos hc] at hord ⊢
          have hInv' : InvC1 ⟨cttl, cexp, some f.metadata.timestamp, rest⟩ := by
            rw [List.map_cons, List.pairwise_cons] at hpw
            refine ⟨hpw.2, ?_⟩
            intro ts hts t ht
            injection ht with ht
            subst ht
            exact hpw.1 ts hts
          have hmain := ih _ hInv' hord
          simp only [FrameCache.run_ops, FrameCache.poll, if_pos hc]
          simp only [Option.toList_some, List.cons_append, List.nil_append,
            List.map_cons]
          constructor
          · rw [List.pairwise_cons]
            refine ⟨?_, hmain.1⟩
            intro b hb
            obtain ⟨B, hB, rfl⟩ := List.mem_map.mp hb
            exact hmain.2 B hB f.metadata.timestamp rfl
          · intro A hA t ht
            rcases List.mem_cons.mp hA with rfl | hA'
            · exact hlt f.metadata.timestamp (by simp) t ht
            · have h1 : t < f.metadata.timestamp :=
                hlt f.metadata.timestamp (by simp) t ht
              have h2 : f.metadata.timestamp < A.metadata.timestamp :=
                hmain.2 A hA' f.metadata.timestamp rfl
              omega
        · simp only [FrameCache.poll, if_neg hc] at hord ⊢
          have hmain := ih ⟨cttl, cexp, clatest, f :: rest⟩
            ⟨by simpa [FrameCache.frame_timestamps] using hpw,
              by simpa [FrameCache.frame_timestamps] using hlt⟩ hord
          simp only [FrameCache.run_ops, FrameCache.poll, if_neg hc]
          simpa using hmain

end Aggregator

namespace Aggregator

/-- The call trace refuting C1 as stated: with no frame yet dispatched,
two frames are pushed with decreasing timestamps (10 then 5); both expire
(ttl 0) and are polled out in queue order, so the second emitted frame has
a smaller timestamp than the first. -/
def C1ops : List (CacheOp EventData) :=
  [ .push 0 0 (mdSample 10 1) edSample, .push 0 0 (mdSample 5 2) edSample,
    .poll 1, .poll 1 ]

/-- C1 counterexample: the aggregated frames emitted by poll on the trace
C1ops carry timestamps [10, 5], which are not strictly increasing, so an
emitted frame's timestamp need not exceed all earlier emitted timestamps. -/
theorem C1_counterexample :
    (((FrameCache.new EventData 0 [0]).run_ops C1ops).2.map
        (fun a => a.metadata.timestamp)) = [10, 5] ∧
    ¬ List.Pairwise (· < ·)
      (((FrameCache.new EventData 0 [0]).run_ops C1ops).2.map
        (fun a => a.metadata.timestamp)) := by
  constructor
  · rfl
  · intro h
    rw [show (((FrameCache.new EventData 0 [0]).run_ops C1ops).2.map
        (fun a => a.metadata.timestamp)) = [10, 5] from rfl] at h
    exact absurd h (by decide)

/-- C1 amended: provided every push that creates a new partial frame (one
whose metadata matches no cached frame) carries a timestamp strictly
greater than the timestamps of all currently cached frames, the aggregated
frames returned by poll have strictly increasing metadata timestamps, each
exceeding all earlier emitted ones. -/
theorem C1_amended_monotonic_dispatch (ttl : Nat) (exp : List Nat)
    (ops : List (CacheOp EventData))
    (h : orderedArrivals (FrameCache.new EventData ttl exp) ops = true) :
    List.Pairwise (· < ·)
      (((FrameCache.new EventData ttl exp).run_ops ops).2.map
        (fun a => a.metadata.timestamp)) := by
  have hInv : InvC1 (FrameCache.new EventData ttl exp) := by
    constructor
    · simp [FrameCache.frame_timestamps, FrameCache.new]
    · intro ts hts
      simp [FrameCache.frame_timestamps, FrameCache.new] at hts
  exact (run_ops_pairwise ops _ hInv h).1

/-- A well-ordered variant of the C1 trace: frames pushed with increasing
timestamps. -/
def C1opsOrdered : List (CacheOp EventData) :=
  [ .push 0 0 (mdSample 5 1) edSample, .push 0 0 (mdSample 10 2) edSample,
    .poll 1, .poll 1 ]

/-- Witness for the amended C1 on the well-ordered trace. -/
theorem C1_amended_monotonic_dispatch_witness :
    orderedArrivals (FrameCache.new EventData 0 [0]) C1opsOrdered = true ∧
    List.Pairwise (· < ·)
      (((FrameCache.new EventData 0 [0]).run_ops C1opsOrdered).2.map
        (fun a => a.metadata.timestamp)) := by
  have h1 : orderedArrivals (FrameCache.new EventData 0 [0]) C1opsOrdered = true := by
    decide
  exact ⟨h1, C1_amended_monotonic_dispatch 0 [0] C1opsOrdered h1⟩

end Aggregator

namespace Aggregator

/-- The sorted id list of a frame with no duplicate contributor ids is
strictly increasing. -/
theorem digitiser_ids_pairwise_lt {D : Type} (f : PartialFrame D)
    (hnd : (f.digitiser_data.map Prod.fst).Nodup) :
    List.Pairwise (· < ·) f.digitiser_ids := by
  have hs : List.Sorted (· ≤ ·) f.digitiser_ids :=
    List.sorted_insertionSort (· ≤ ·) (f.digitiser_data.map Prod.fst)
  have hperm : f.digitiser_ids.Perm (f.digitiser_data.map Prod.fst) :=
    List.perm_insertionSort (· ≤ ·) (f.digitiser_data.map Prod.fst)
  have hnd' : f.digitiser_ids.Nodup := hperm.nodup_iff.mpr hnd
  have hand := List.Pairwise.and hs hnd'
  refine hand.imp ?_
  intro a b hab
  exact lt_of_le_of_ne hab.1 hab.2

/-- When the expected-digitiser list is not strictly increasing,
PartialFrame::set_completion_status never fires on a frame with no
duplicate contributor ids. -/
theorem set_completion_of_not_pairwise {D : Type} (f : PartialFrame D)
    (exp : List Nat) (hexp : ¬ List.Pairwise (· < ·) exp)
    (hnd : (f.digitiser_data.map Prod.fst).Nodup) :
    f.set_completion_status exp = f := by
  unfold PartialFrame.set_completion_status
  rw [if_neg]
  intro heq
  exact hexp (heq ▸ digitiser_ids_pairwise_lt f hnd)

/-- Frame properties preserved by the frame-list traversal of
FrameCache::push, given they hold for the freshly created frame and are
preserved by the merge path under its duplicate-id guard. -/
theorem pushIntoFrames_ok_forall {D : Type} (P : PartialFrame D → Prop)
    (ttl : Nat) (exp : List Nat) (now did : Nat) (metadata : FrameMetadata)
    (data : D)
    (hnew : P ((PartialFrame.new D ttl now metadata).push did data))
    (hmerge : ∀ f, P f → f.has_digitiser_id did = false →
      P (((f.push did data).push_veto_flags metadata.veto_flags).set_completion_status exp)) :
    ∀ frames fs, (∀ f ∈ frames, P f) →
      pushIntoFrames ttl exp now did metadata data frames = .ok fs →
      ∀ f ∈ fs, P f := by
  intro frames
  induction frames with
  | nil =>
    intro fs hP h
    simp only [pushIntoFrames] at h
    injection h with h
    subst h
    intro f hf
    simp only [List.mem_singleton] at hf
    subst hf
    exact hnew
  | cons g rest ih =>
    intro fs hP h
    by_cases hm : g.metadata.equals_ignoring_veto_flags metadata = true
    · by_cases hd : g.has_digitiser_id did = true
      · simp [pushIntoFrames, hm, hd] at h
      · simp only [pushIntoFrames, hm, if_true, hd, if_false] at h
        injection h with h
        subst h
        intro f hf
        rcases List.mem_cons.mp hf with rfl | hf'
        · exact hmerge g (hP g (by simp)) (by simpa using hd)
        · exact hP f (List.mem_cons_of_mem _ hf')
    · simp only [pushIntoFrames, hm, if_false] at h
      rcases hp : pushIntoFrames ttl exp now did metadata data rest with e' | rest'
      · rw [hp] at h
        cases h
      · rw [hp] at h
        injection h with h
        subst h
        intro f hf
        rcases List.mem_cons.mp hf with rfl | hf'
        · exact hP f (by simp)
        · exact ih rest' (fun f hf => hP f (List.mem_cons_of_mem _ hf)) hp f hf'

/-- All cached frames are incomplete and have duplicate-free contributor
ids. -/
def IncompleteNodup {D : Type} (c : FrameCache D) : Prop :=
  ∀ f ∈ c.frames, f.complete = false ∧ (f.digitiser_data.map Prod.fst).Nodup

/-- FrameCache::push preserves IncompleteNodup when the cache's expected
digitiser list is not strictly increasing. -/
theorem push_IncompleteNodup {D : Type} (c : FrameCache D) (now did : Nat)
    (metadata : FrameMetadata) (data : D)
    (hexp : ¬ List.Pairwise (· < ·) c.expected_digitisers)
    (h : IncompleteNodup c) : IncompleteNodup (c.push now did metadata data).2 := by
  obtain ⟨cttl, cexp, clatest, cframes⟩ := c
  simp only at hexp
  have hok : ∀ fs, pushIntoFrames cttl cexp now did metadata data cframes = .ok fs →
      IncompleteNodup ⟨cttl, cexp, clatest, fs⟩ := by
    intro fs hp
    have hpres := pushIntoFrames_ok_forall
      (fun f => f.complete = false ∧ (f.digitiser_data.map Prod.fst).Nodup)
      cttl cexp now did metadata data ?hnew ?hmerge cframes fs h hp
    · exact hpres
    case hnew =>
      refine ⟨rfl, ?_⟩
      simp [PartialFrame.new, PartialFrame.push]
    case hmerge =>
      intro f hf hdid
      have hnodup : ((f.push did data).digitiser_data.map Prod.fst).Nodup := by
        simp only [PartialFrame.push, List.map_append, List.map_cons, List.map_nil]
        rw [List.nodup_append]
        refine ⟨hf.2, by simp, ?_⟩
        intro a ha hb
        simp only [List.mem_singleton] at hb
        subst hb
        obtain ⟨p, hp2, hpa⟩ := List.mem_map.mp ha
        have hq : (a == p.1) = true := by
          rw [hpa]
          exact beq_self_eq_true a
        rw [PartialFrame.has_digitiser_id] at hdid
        have hany : f.digitiser_data.any (fun q => a == q.1) = true :=
          List.any_eq_true.mpr ⟨p, hp2, hq⟩
        rw [hany] at hdid
        cases hdid
      have hnodup' :
          (((f.push did data).push_veto_flags
            metadata.veto_flags).digitiser_data.map Prod.fst).Nodup := hnodup
      rw [set_completion_of_not_pairwise _ cexp hexp hnodup']
      exact ⟨hf.1, hnodup'⟩
  rcases clatest with _ | t
  · rcases hp : pushIntoFrames cttl cexp now did metadata data cframes with e' | fs
    · simpa only [FrameCache.push, FrameCache.push_accepted, hp] using h
    · simp only [FrameCache.push, FrameCache.push_accepted, hp]
      exact hok fs hp
  · by_cases hle : metadata.timestamp ≤ t
    · simpa only [FrameCache.push, if_pos hle] using h
    · rcases hp : pushIntoFrames cttl cexp now did metadata data cframes with e' | fs
      · simpa only [FrameCache.push, if_neg hle, FrameCache.push_accepted, hp] using h
      · simp only [FrameCache.push, if_neg hle, FrameCache.push_accepted, hp]
        exact hok fs hp

/-- Running any call trace on a cache whose expected digitiser list is not
strictly increasing keeps every cached frame incomplete, and every
aggregated frame it emits carries complete = false. -/
theorem run_ops_incomplete {D : Type} [Accumulate D] :
    ∀ (ops : List (CacheOp D)) (c : FrameCache D),
      ¬ List.Pairwise (· < ·) c.expected_digitisers →
      IncompleteNodup c →
      IncompleteNodup (c.run_ops ops).1 ∧
      (∀ A ∈ (c.run_ops ops).2, A.complete = false) := by
  intro ops
  induction ops with
  | nil =>
    intro c _ h
    simp only [FrameCache.run_ops]
    exact ⟨h, by simp⟩
  | cons op ops ih =>
    intro c hexp h
    cases op with
    | push now did metadata data =>
      simp only [FrameCache.run_ops]
      refine ih _ ?_ (push_IncompleteNodup c now did metadata data hexp h)
      rw [(push_ttl_expected c now did metadata data).2]
      exact hexp
    | poll now =>
      obtain ⟨cttl, cexp, clatest, cframes⟩ := c
      simp only at hexp
      rcases cframes with _ | ⟨f, rest⟩
      · simp only [FrameCache.run_ops, FrameCache.poll]
        have hmain := ih ⟨cttl, cexp, clatest, []⟩ hexp (by intro f hf; cases hf)
        simp only [FrameCache.poll] at hmain
        simpa using hmain
      · by_cases hc : (f.is_complete || f.is_expired now) = true
        · simp only [FrameCache.run_ops, FrameCache.poll, if_pos hc]
          have hrest : IncompleteNodup
              (⟨cttl, cexp, some f.metadata.timestamp, rest⟩ : FrameCache D) := by
            intro g hg
            exact h g (List.mem_cons_of_mem _ hg)
          have hmain := ih _ hexp hrest
          refine ⟨hmain.1, ?_⟩
          intro A hA
          simp only [Option.toList_some, List.cons_append, List.nil_append] at hA
          rcases List.mem_cons.mp hA with rfl | hA'
          · have hfc : f.complete = false := (h f (by simp)).1
            simpa [AggregatedFrame.of_partial, PartialFrame.is_complete] using hfc
          · exact hmain.2 A hA'
        · simp only [FrameCache.run_ops, FrameCache.poll, if_neg hc]
          have hmain := ih ⟨cttl, cexp, clatest, f :: rest⟩ hexp h
          simpa using hmain

/-- On a cache all of whose frames are incomplete, a successful poll means
the front frame's expiry instant is strictly in the past. -/
theorem poll_some_expired {D : Type} [Accumulate D] (c : FrameCache D)
    (h : ∀ f ∈ c.frames, f.complete = false) (now : Nat)
    (A : AggregatedFrame D) (c₂ : FrameCache D)
    (hp : c.poll now = (some A, c₂)) :
    ∃ f rest, c.frames = f :: rest ∧ now > f.expiry := by
  obtain ⟨cttl, cexp, clatest, cframes⟩ := c
  rcases cframes with _ | ⟨f, rest⟩
  · simp only [FrameCache.poll] at hp
    have h1 := congrArg Prod.fst hp
    simp at h1
  · by_cases hc : (f.is_complete || f.is_expired now) = true
    · refine ⟨f, rest, rfl, ?_⟩
      have hfc : f.is_complete = false := h f (by simp)
      rw [hfc] at hc
      simpa [PartialFrame.is_expired] using hc
    · simp only [FrameCache.poll, if_neg hc] at hp
      have h1 := congrArg Prod.fst hp
      simp at h1

end Aggregator

namespace Aggregator

/-- C10: when the expected_digitisers list given to FrameCache::new is not
strictly increasing (sorted ascending without duplicates), no partial
frame ever becomes complete along any call trace, every emitted aggregated
frame carries complete = false, and a poll dispatches a frame only when
the current instant is strictly past the front frame's expiry; the
constructor does not check this precondition. -/
theorem C10_unsorted_expected_dispatch_only_by_expiry (ttl : Nat)
    (exp : List Nat) (ops : List (CacheOp EventData))
    (hexp : ¬ List.Pairwise (· < ·) exp) :
    (∀ f ∈ ((FrameCache.new EventData ttl exp).run_ops ops).1.frames,
      f.complete = false) ∧
    (∀ A ∈ ((FrameCache.new EventData ttl exp).run_ops ops).2,
      A.complete = false) ∧
    (∀ now A c₂,
      ((FrameCache.new EventData ttl exp).run_ops ops).1.poll now = (some A, c₂) →
      ∃ f rest, ((FrameCache.new EventData ttl exp).run_ops ops).1.frames = f :: rest ∧
        now > f.expiry) := by
  have hmain := run_ops_incomplete ops (FrameCache.new EventData ttl exp) hexp
    (by intro f hf; cases hf)
  refine ⟨fun f hf => (hmain.1 f hf).1, hmain.2, ?_⟩
  intro now A c₂ hp
  exact poll_some_expired _ (fun f hf => (hmain.1 f hf).1) now A c₂ hp

/-- A trace pushing both digitisers 0 and 1 of one frame into a cache
whose expected list is the unsorted [1, 0]. -/
def C10ops : List (CacheOp EventData) :=
  [ .push 0 0 (mdSample 10 1) edSample, .push 0 1 (mdSample 10 1) edSample ]

/-- Witness for C10: with expected_digitisers = [1, 0], a frame holding
exactly the digitisers 0 and 1 still has complete = false. -/
theorem C10_unsorted_expected_dispatch_only_by_expiry_witness :
    ¬ List.Pairwise (· < ·) ([1, 0] : List Nat) ∧
    (((FrameCache.new EventData 100 [1, 0]).run_ops C10ops).1.frames.map
      (fun f => f.complete)) = [false] := by
  have h := C10_unsorted_expected_dispatch_only_by_expiry 100 [1, 0] C10ops
    (by decide)
  refine ⟨by decide, ?_⟩
  have hfr : ((FrameCache.new EventData 100 [1, 0]).run_ops C10ops).1.frames =
      [⟨false, 100, mdSample 10 1, [(0, edSample), (1, edSample)]⟩] := rfl
  rw [hfr]
  have hc := h.1 ⟨false, 100, mdSample 10 1, [(0, edSample), (1, edSample)]⟩
    (by rw [hfr]; simp)
  rw [List.map_cons, hc, List.map_nil]

end Aggregator

namespace NexusWriter

/-!
The nexus-writer embedding.  chrono DateTime<Utc> values (NexusDateTime)
are modelled as Int nanoseconds since the epoch; chrono
DateTime::from_timestamp_millis multiplies by 10^6 and fails outside
chrono's representable range.  HDF5 datasets are modelled as the lists of
values appended to them (they are created empty and resizable).
-/

/-- Errors of the hdf5_handlers layer reachable from the embedded code
(payloads and path annotations dropped): a missing offset/timestamp, a
TimeDelta whose nanosecond count overflows i64, and a failed integer
conversion. -/
inductive NexusHDF5Error where
  | FlatBufferMissingTimestamp
  | TimedeltaConvertToNs
  | TryFromInt
  deriving DecidableEq, Repr

/-- The content of a FrameAssembledEventListMessage used by the EventData
group handler (fields the source unwraps with ok_or are modelled as
present; the message timestamp is ns since epoch). -/
structure FrameEventListMessage where
  timestamp : Int
  period_number : Nat
  frame_number : Nat
  complete : Bool
  running : Bool
  veto_flags : Nat
  voltage : List Nat
  time : List Nat
  channel : List Nat
  deriving DecidableEq, Repr

/-- The per-message number of new events, num_new_events = channels.len()
in the source handler. -/
def FrameEventListMessage.eventCount (m : FrameEventListMessage) : Nat :=
  m.channel.length

/-- struct EventData of src/nexus-writer/src/nexus_structure/entry/event_data.rs
(named EventDataGroup here to avoid clashing with the aggregator's
EventData).  Datasets are the lists of appended values; the
event_time_zero offset attribute is the offset field. -/
structure EventDataGroup where
  num_messages : Nat
  num_events : Nat
  offset : Option Int
  pulse_height : List Nat
  event_id : List Nat
  event_time_offset : List Nat
  event_time_zero : List Int
  event_index : List Nat
  event_frame_number : List Nat
  period_number : List Nat
  frame_number : List Nat
  frame_complete : List Bool
  running : List Bool
  veto_flags : List Nat
  deriving DecidableEq, Repr

/-- EventData::build_group_structure: all datasets created empty, no
offset, zero counters. -/
def EventDataGroup.build : EventDataGroup :=
  { num_messages := 0, num_events := 0, offset := none, pulse_height := []
    event_id := [], event_time_offset := [], event_time_zero := []
    event_index := [], event_frame_number := [], period_number := []
    frame_number := [], frame_complete := [], running := [], veto_flags := [] }

/-- NexusMessageHandler<InitialiseNewNexusRun> for EventData: stores the
run's collect_from as the offset (also written to the dataset's offset
attribute). -/
def EventDataGroup.handle_initialise_new_nexus_run (s : EventDataGroup)
    (collect_from : Int) : EventDataGroup :=
  { s with offset := some collect_from }

/-- EventData::get_time_zero: the message timestamp minus the offset, in
nanoseconds, converted TimeDelta → i64 (num_nanoseconds, None on i64
overflow) → u64 (fails on negative). -/
def EventDataGroup.get_time_zero (s : EventDataGroup)
    (message : FrameEventListMessage) : Except NexusHDF5Error Nat :=
  match s.offset with
  | none => .error .FlatBufferMissingTimestamp
  | some offset =>
    let timedelta := message.timestamp - offset
    if timedelta < -(2 ^ 63) ∨ (2 ^ 63 : Int) ≤ timedelta then
      .error .TimedeltaConvertToNs
    else if timedelta < 0 then
      .error .TryFromInt
    else
      .ok timedelta.toNat

/-- NexusMessageHandler<PushFrameEventList> for EventData: appends
num_events to event_index, then the frame-indexed values (time_zero in
nanoseconds since the offset - the source's TODO notes it is yet to be
scaled to seconds), then the per-event slices, and updates the counters.
On a get_time_zero error the handler returns early with event_index
already appended, exactly as the source's ? operator does. -/
def EventDataGroup.handle_push_frame_event_list (s : EventDataGroup)
    (message : FrameEventListMessage) :
    Except NexusHDF5Error Unit × EventDataGroup :=
  let s1 := { s with event_index := s.event_index ++ [s.num_events] }
  match s1.get_time_zero message with
  | .error e => (.error e, s1)
  | .ok time_zero =>
    (.ok (),
      { s1 with
        event_time_zero := s1.event_time_zero ++ [(time_zero : Int)]
        period_number := s1.period_number ++ [message.period_number]
        frame_number := s1.frame_number ++ [message.frame_number]
        frame_complete := s1.frame_complete ++ [message.complete]
        running := s1.running ++ [message.running]
        veto_flags := s1.veto_flags ++ [message.veto_flags]
        pulse_height := s1.pulse_height ++ message.voltage
        event_time_offset := s1.event_time_offset ++ message.time
        event_id := s1.event_id ++ message.channel
        num_events := s1.num_events + message.channel.length
        num_messages := s1.num_messages + 1 })

/-- Handles a sequence of frame event list messages, failing fast as the
run engine does when a handler errors. -/
def handleFrames (s : EventDataGroup) :
    List FrameEventListMessage → Except NexusHDF5Error EventDataGroup
  | [] => .ok s
  | m :: ms =>
    match s.handle_push_frame_event_list m with
    | (.ok _, s') => handleFrames s' ms
    | (.error e, _) => .error e

/-- adjust_nanoseconds_by_origin_to_sec of src/nexus-writer/src/nexus/logs/mod.rs:
(nanoseconds − origin_ns) / 1e9, the seconds-since-origin conversion the
spec attributes to all seconds-since-run-start timestamps (f64 arithmetic
modelled as exact rationals; origin.timestamp_nanos_opt() is Some since
the origin is modelled in nanoseconds). -/
def adjust_nanoseconds_by_origin_to_sec (nanoseconds : Int) (origin_time : Int) : ℚ :=
  ((nanoseconds - origin_time : Int) : ℚ) / 1000000000

end NexusWriter

namespace NexusWriter

/-- A run whose collect_from (and hence event_time_zero offset) is the
epoch. -/
def C5run : EventDataGroup := EventDataGroup.build.handle_initialise_new_nexus_run 0

/-- A frame event list message timestamped 1.5 seconds after the run
start, with no events. -/
def C5msg : FrameEventListMessage :=
  { timestamp := 1500000000, period_number := 0, frame_number := 0, complete := true,
    running := true, veto_flags := 0, voltage := [], time := [], channel := [] }

/-- C5: at the failing input (run start at the epoch, frame timestamped
1 500 000 000 ns later) the handler appends the raw nanosecond value
1500000000 to event_time_zero, not the 1.5 seconds that the claimed
formula (event_ns − run_start_ns) / 1e9 yields; the dataset's declared
unit is seconds and the source carries a TODO to scale the value, so the
code diverges from its own documentation. -/
theorem C5_event_time_zero_written_in_nanoseconds :
    (C5run.handle_push_frame_event_list C5msg).2.event_time_zero = [1500000000] ∧
    adjust_nanoseconds_by_origin_to_sec C5msg.timestamp 0 = 3 / 2 ∧
    ((1500000000 : ℚ) ≠ 3 / 2) := by
  refine ⟨rfl, ?_, by norm_num⟩
  norm_num [adjust_nanoseconds_by_origin_to_sec, C5msg]

/-- The closed form of handling a list of frame messages successfully:
every dataset is the original extended by the per-message appends, in
message order, and event_index receives the running event count. -/
theorem handleFrames_ok_shape :
    ∀ (ms : List FrameEventListMessage) (s s' : EventDataGroup),
      handleFrames s ms = .ok s' →
      s'.num_events = s.num_events + (ms.map FrameEventListMessage.eventCount).sum ∧
      s'.event_index = s.event_index ++ (List.range ms.length).map
        (fun i => s.num_events +
          ((ms.take i).map FrameEventListMessage.eventCount).sum) ∧
      s'.pulse_height = s.pulse_height ++ (ms.map (fun m => m.voltage)).flatten ∧
      s'.event_time_offset = s.event_time_offset ++ (ms.map (fun m => m.time)).flatten ∧
      s'.event_id = s.event_id ++ (ms.map (fun m => m.channel)).flatten ∧
      s'.period_number = s.period_number ++ ms.map (fun m => m.period_number) ∧
      s'.frame_number = s.frame_number ++ ms.map (fun m => m.frame_number) ∧
      s'.frame_complete = s.frame_complete ++ ms.map (fun m => m.complete) ∧
      s'.running = s.running ++ ms.map (fun m => m.running) ∧
      s'.veto_flags = s.veto_flags ++ ms.map (fun m => m.veto_flags) ∧
      ∃ tzs, s'.event_time_zero = s.event_time_zero ++ tzs ∧ tzs.length = ms.length := by
  intro ms
  induction ms with
  | nil =>
    intro s s' h
    simp only [handleFrames] at h
    injection h with h
    subst h
    refine ⟨by simp, by simp, by simp, by simp, by simp, by simp, by simp, by simp,
      by simp, by simp, [], by simp, rfl⟩
  | cons m ms ih =>
    intro s s' h
    simp only [handleFrames, EventDataGroup.handle_push_frame_event_list] at h
    rcases htz : ({ s with event_index := s.event_index ++ [s.num_events]} :
        EventDataGroup).get_time_zero m with e | time_zero
    · rw [htz] at h
      cases h
    · rw [htz] at h
      obtain ⟨h1, h2, h3, h4, h5, h6, h7, h8, h9, h10, tzs, h11, h12⟩ := ih _ s' h
      refine ⟨?_, ?_, ?_, ?_, ?_, ?_, ?_, ?_, ?_, ?_, ?_⟩
      · rw [h1]
        simp [FrameEventListMessage.eventCount, Nat.add_assoc]
      · rw [h2]
        simp only [List.length_cons, List.range_succ_eq_map, List.map_cons,
          List.map_map, List.take_zero, List.map_nil, List.sum_nil, Nat.add_zero]
        rw [List.append_assoc]
        refine congrArg (s.event_index ++ ·) ?_
        rw [List.singleton_append]
        refine congrArg (List.cons s.num_events) ?_
        refine List.map_congr_left ?_
        intro i hi
        simp [FrameEventListMessage.eventCount, Nat.add_assoc]
      · rw [h3]
        simp [List.append_assoc]
      · rw [h4]
        simp [List.append_assoc]
      · rw [h5]
        simp [List.append_assoc]
      · rw [h6]
        simp [List.append_assoc]
      · rw [h7]
        simp [List.append_assoc]
      · rw [h8]
        simp [List.append_assoc]
      · rw [h9]
        simp [List.append_assoc]
      · rw [h10]
        simp [List.append_assoc]
      · refine ⟨(time_zero : Int) :: tzs, ?_, by simp [h12]⟩
        rw [h11]
        simp [List.append_assoc]

end NexusWriter

namespace NexusWriter

/-- C6: event-data datasets are append-only (after handling a message each
dataset extends its previous contents), each frame-indexed dataset's
length equals the number of messages handled and each event-indexed
dataset's length equals the running event count, and event_index[i] is the
cumulative number of events appended by frames 0..i-1. -/
theorem C6_event_data_append_only :
    (∀ (s : EventDataGroup) (m : FrameEventListMessage),
      s.event_index <+: ((s.handle_push_frame_event_list m).2).event_index ∧
      s.event_time_zero <+: ((s.handle_push_frame_event_list m).2).event_time_zero ∧
      s.period_number <+: ((s.handle_push_frame_event_list m).2).period_number ∧
      s.frame_number <+: ((s.handle_push_frame_event_list m).2).frame_number ∧
      s.frame_complete <+: ((s.handle_push_frame_event_list m).2).frame_complete ∧
      s.running <+: ((s.handle_push_frame_event_list m).2).running ∧
      s.veto_flags <+: ((s.handle_push_frame_event_list m).2).veto_flags ∧
      s.pulse_height <+: ((s.handle_push_frame_event_list m).2).pulse_height ∧
      s.event_time_offset <+: ((s.handle_push_frame_event_list m).2).event_time_offset ∧
      s.event_id <+: ((s.handle_push_frame_event_list m).2).event_id) ∧
    (∀ (off : Int) (ms : List FrameEventListMessage) (s' : EventDataGroup),
      handleFrames (EventDataGroup.build.handle_initialise_new_nexus_run off) ms =
        .ok s' →
      (s'.event_index.length = ms.length ∧
       s'.event_time_zero.length = ms.length ∧
       s'.period_number.length = ms.length ∧
       s'.frame_number.length = ms.length ∧
       s'.frame_complete.length = ms.length ∧
       s'.running.length = ms.length ∧
       s'.veto_flags.length = ms.length ∧
       s'.num_events = (ms.map FrameEventListMessage.eventCount).sum ∧
       s'.pulse_height.length = (ms.map (fun m => m.voltage.length)).sum ∧
       s'.event_time_offset.length = (ms.map (fun m => m.time.length)).sum ∧
       s'.event_id.length = (ms.map (fun m => m.channel.length)).sum) ∧
      (∀ i (hi : i < s'.event_index.length),
        s'.event_index.get ⟨i, hi⟩ =
          ((ms.take i).map FrameEventListMessage.eventCount).sum)) := by
  constructor
  · intro s m
    rcases htz : ({ s with event_index := s.event_index ++ [s.num_events] } :
        EventDataGroup).get_time_zero m with e | tz
    · simp only [EventDataGroup.handle_push_frame_event_list, htz]
      exact ⟨List.prefix_append _ _, List.prefix_rfl, List.prefix_rfl,
        List.prefix_rfl, List.prefix_rfl, List.prefix_rfl, List.prefix_rfl,
        List.prefix_rfl, List.prefix_rfl, List.prefix_rfl⟩
    · simp only [EventDataGroup.handle_push_frame_event_list, htz]
      exact ⟨List.prefix_append _ _, List.prefix_append _ _, List.prefix_append _ _,
        List.prefix_append _ _, List.prefix_append _ _, List.prefix_append _ _,
        List.prefix_append _ _, List.prefix_append _ _, List.prefix_append _ _,
        List.prefix_append _ _⟩
  · intro off ms s' h
    obtain ⟨h1, h2, h3, h4, h5, h6, h7, h8, h9, h10, tzs, h11, h12⟩ :=
      handleFrames_ok_shape ms _ s' h
    have hidx : s'.event_index = (List.range ms.length).map
        (fun i => ((ms.take i).map FrameEventListMessage.eventCount).sum) := by
      rw [h2]
      simp [EventDataGroup.handle_initialise_new_nexus_run, EventDataGroup.build]
    constructor
    · refine ⟨?_, ?_, ?_, ?_, ?_, ?_, ?_, ?_, ?_, ?_, ?_⟩
      · rw [hidx]
        simp
      · rw [h11]
        simpa [EventDataGroup.handle_initialise_new_nexus_run, EventDataGroup.build]
          using h12
      · rw [h6]
        simp [EventDataGroup.handle_initialise_new_nexus_run, EventDataGroup.build]
      · rw [h7]
        simp [EventDataGroup.handle_initialise_new_nexus_run, EventDataGroup.build]
      · rw [h8]
        simp [EventDataGroup.handle_initialise_new_nexus_run, EventDataGroup.build]
      · rw [h9]
        simp [EventDataGroup.handle_initialise_new_nexus_run, EventDataGroup.build]
      · rw [h10]
        simp [EventDataGroup.handle_initialise_new_nexus_run, EventDataGroup.build]
      · rw [h1]
        simp [EventDataGroup.handle_initialise_new_nexus_run, EventDataGroup.build]
      · rw [h3]
        simp [EventDataGroup.handle_initialise_new_nexus_run, EventDataGroup.build,
          List.length_flatten, List.map_map]
        rfl
      · rw [h4]
        simp [EventDataGroup.handle_initialise_new_nexus_run, EventDataGroup.build,
          List.length_flatten, List.map_map]
        rfl
      · rw [h5]
        simp [EventDataGroup.handle_initialise_new_nexus_run, EventDataGroup.build,
          List.length_flatten, List.map_map]
        rfl
    · intro i hi
      rw [List.get_eq_getElem]
      have hi' : i < ms.length := by
        rw [hidx] at hi
        simpa using hi
      simp only [hidx, List.getElem_map, List.getElem_range]

/-- A frame message with two events. -/
def C6msg1 : FrameEventListMessage :=
  { timestamp := 1000000000, period_number := 1, frame_number := 1, complete := true,
    running := true, veto_flags := 0, voltage := [10, 11], time := [5, 6],
    channel := [7, 8] }

/-- A frame message with one event. -/
def C6msg2 : FrameEventListMessage :=
  { timestamp := 2000000000, period_number := 1, frame_number := 2, complete := true,
    running := true, veto_flags := 0, voltage := [12], time := [9], channel := [3] }

/-- The state after handling C6msg1 then C6msg2 from a fresh run. -/
def C6final : EventDataGroup :=
  match handleFrames (EventDataGroup.build.handle_initialise_new_nexus_run 0)
      [C6msg1, C6msg2] with
  | .ok s => s
  | .error _ => EventDataGroup.build

/-- Witness for C6 at a concrete two-message run. -/
theorem C6_event_data_append_only_witness :
    (EventDataGroup.build.event_index <+:
      ((EventDataGroup.build.handle_push_frame_event_list C6msg1).2).event_index) ∧
    C6final.event_index.length = 2 ∧
    C6final.event_index.get? 1 = some 2 := by
  have h := C6_event_data_append_only
  have hrun : handleFrames (EventDataGroup.build.handle_initialise_new_nexus_run 0)
      [C6msg1, C6msg2] = .ok C6final := rfl
  have h2 := h.2 0 [C6msg1, C6msg2] C6final hrun
  refine ⟨(h.1 EventDataGroup.build C6msg1).1, by simpa using h2.1.1, ?_⟩
  have hg := h2.2 1 (by simp [h2.1.1])
  rw [List.get?_eq_get (by simp [h2.1.1] : 1 < C6final.event_index.length), hg]
  decide

end NexusWriter

namespace NexusWriter

/-- The NexusWriterError variants reachable from the embedded run-parameter
code (payloads and code locations dropped), per
src/nexus-writer/src/error.rs. -/
inductive NexusWriterError where
  | TryFromInt
  | IntOutOfRangeForDateTime
  | StopCommandBeforeStartCommand
  | StopTimeEarlierThanStartTime
  | RunStopAlreadySet
  | RunStopUnexpected
  deriving DecidableEq, Repr

/-- struct RunStopParameters of
src/nexus-writer/src/run_engine/run/run_parameters.rs (timestamps as Int
nanoseconds since epoch). -/
structure RunStopParameters where
  collect_until : Int
  last_modified : Int
  deriving DecidableEq, Repr

/-- struct RunParameters of
src/nexus-writer/src/run_engine/run/run_parameters.rs. -/
structure RunParameters where
  collect_from : Int
  run_stop_parameters : Option RunStopParameters
  run_name : String
  periods : List Nat
  file_name : String
  deriving DecidableEq, Repr

/-- Rust's u64 → i64 TryInto: fails for values at or above 2^63. -/
def u64_to_i64 (n : Nat) : Except NexusWriterError Int :=
  if n < 2 ^ 63 then .ok (n : Int) else .error .TryFromInt

/-- chrono DateTime::from_timestamp_millis: Some(the datetime) for
milliseconds within chrono's representable range (-262143-01-01 to
262142-12-31), None otherwise; the datetime is modelled as nanoseconds
since epoch. -/
def from_timestamp_millis (millis : Int) : Option Int :=
  if -8334601228800000 ≤ millis ∧ millis ≤ 8210266876799999 then
    some (millis * 1000000)
  else none

/-- RunParameters::set_stop_if_valid: rejects a second stop, converts the
u64 millisecond stop time to a datetime, accepts it only strictly after
collect_from; `now` is the Utc::now() read for last_modified.  The first
component is the returned Result, the second the parameters after the
call. -/
def RunParameters.set_stop_if_valid (p : RunParameters) (stop_time : Nat)
    (now : Int) : Except NexusWriterError Unit × RunParameters :=
  if p.run_stop_parameters.isSome then
    (.error .StopCommandBeforeStartCommand, p)
  else
    match u64_to_i64 stop_time with
    | .error e => (.error e, p)
    | .ok ms =>
      match from_timestamp_millis ms with
      | none => (.error .IntOutOfRangeForDateTime, p)
      | some stop_dt =>
        if p.collect_from < stop_dt then
          (.ok (), { p with run_stop_parameters := some ⟨stop_dt, now⟩ })
        else
          (.error .StopTimeEarlierThanStartTime, p)

/-- A run with no stop set, starting at the epoch. -/
def C7params : RunParameters :=
  { collect_from := 0, run_stop_parameters := none, run_name := "run",
    periods := [], file_name := "file" }

/-- C7 counterexample: with no stop set and stop_time = 2^63 ms (a time
far after collect_from = 0), set_stop_if_valid fails the u64 → i64
conversion, so it neither succeeds nor fails with either of the two
errors named by the claim. -/
theorem C7_counterexample :
    (C7params.set_stop_if_valid (2 ^ 63) 0).1 = .error .TryFromInt ∧
    (C7params.set_stop_if_valid (2 ^ 63) 0).1 ≠ .ok () ∧
    (C7params.set_stop_if_valid (2 ^ 63) 0).1 ≠
      .error .StopCommandBeforeStartCommand ∧
    (C7params.set_stop_if_valid (2 ^ 63) 0).1 ≠
      .error .StopTimeEarlierThanStartTime := by
  have hval : (C7params.set_stop_if_valid (2 ^ 63) 0).1 = .error .TryFromInt := rfl
  refine ⟨hval, ?_, ?_, ?_⟩ <;> rw [hval] <;> intro hcon <;> simp at hcon

/-- The u64 to i64 conversion of the stop time only ever fails with the
integer-conversion error. -/
theorem u64_to_i64_error_eq (n : Nat) (e : NexusWriterError)
    (h : u64_to_i64 n = .error e) : e = .TryFromInt := by
  unfold u64_to_i64 at h
  split at h
  · cases h
  · injection h with h
    exact h.symm

/-- C7 amended: set_stop_if_valid fails StopCommandBeforeStartCommand iff
a stop is already set; when the stop time converts to a valid timestamp it
fails StopTimeEarlierThanStartTime iff no stop is set and stop ≤ start,
and succeeds iff no stop is set and stop > start, setting collect_until to
the stop time; a stop time that fails the u64 → i64 conversion propagates
that integer-conversion error (the only one, TryFromInt), and one whose
milliseconds fall outside chrono's range fails with
IntOutOfRangeForDateTime; every failure leaves the run's stop parameters
unchanged, so a run accepts at most one RunStop. -/
theorem C7_amended_set_stop_semantics (p : RunParameters) (stop_time : Nat)
    (now : Int) :
    ((p.set_stop_if_valid stop_time now).1 = .error .StopCommandBeforeStartCommand ↔
      p.run_stop_parameters.isSome = true) ∧
    (∀ ms stop_dt, u64_to_i64 stop_time = .ok ms →
      from_timestamp_millis ms = some stop_dt →
      (((p.set_stop_if_valid stop_time now).1 = .error .StopTimeEarlierThanStartTime) ↔
        (p.run_stop_parameters.isSome = false ∧ stop_dt ≤ p.collect_from)) ∧
      (((p.set_stop_if_valid stop_time now).1 = .ok ()) ↔
        (p.run_stop_parameters.isSome = false ∧ p.collect_from < stop_dt)) ∧
      ((p.set_stop_if_valid stop_time now).1 = .ok () →
        (p.set_stop_if_valid stop_time now).2 =
          { p with run_stop_parameters := some ⟨stop_dt, now⟩ })) ∧
    (∀ e0, u64_to_i64 stop_time = .error e0 →
      (p.run_stop_parameters.isSome = false →
        (p.set_stop_if_valid stop_time now).1 = .error e0) ∧
      e0 = .TryFromInt) ∧
    (∀ ms, u64_to_i64 stop_time = .ok ms → from_timestamp_millis ms = none →
      p.run_stop_parameters.isSome = false →
      (p.set_stop_if_valid stop_time now).1 = .error .IntOutOfRangeForDateTime) ∧
    (∀ e, (p.set_stop_if_valid stop_time now).1 = .error e →
      (p.set_stop_if_valid stop_time now).2 = p) := by
  by_cases hs : p.run_stop_parameters.isSome = true
  · refine ⟨by simp [RunParameters.set_stop_if_valid, hs], ?_, ?_, ?_, ?_⟩
    · intro ms stop_dt h1 h2
      refine ⟨?_, ?_, ?_⟩ <;> simp [RunParameters.set_stop_if_valid, hs]
    · intro e0 hconv
      refine ⟨?_, u64_to_i64_error_eq stop_time e0 hconv⟩
      intro hns
      simp [hns] at hs
    · intro ms hconv hnone hns
      simp [hns] at hs
    · intro e h
      simp [RunParameters.set_stop_if_valid, hs]
  · rcases hconv : u64_to_i64 stop_time with e0 | ms
    · have he : e0 = .TryFromInt := u64_to_i64_error_eq stop_time e0 hconv
      refine ⟨?_, ?_, ?_, ?_, ?_⟩
      · subst he
        simp [RunParameters.set_stop_if_valid, hs, hconv]
      · intro ms stop_dt h1 h2
        cases h1
      · intro e0' h1
        injection h1 with h1
        subst h1
        refine ⟨fun _ => ?_, he⟩
        simp [RunParameters.set_stop_if_valid, hs, hconv]
      · intro ms h1 h2 hns
        cases h1
      · intro e h
        simp [RunParameters.set_stop_if_valid, hs, hconv]
    · rcases hfm : from_timestamp_millis ms with _ | stop_dt
      · refine ⟨?_, ?_, ?_, ?_, ?_⟩
        · simp [RunParameters.set_stop_if_valid, hs, hconv, hfm]
        · intro ms' stop_dt' h1 h2
          injection h1 with h1
          subst h1
          rw [hfm] at h2
          cases h2
        · intro e0 h1
          cases h1
        · intro ms' h1 h2 hns
          injection h1 with h1
          subst h1
          simp [RunParameters.set_stop_if_valid, hs, hconv, hfm]
        · intro e h
          simp [RunParameters.set_stop_if_valid, hs, hconv, hfm]
      · by_cases hlt : p.collect_from < stop_dt
        · refine ⟨?_, ?_, ?_, ?_, ?_⟩
          · simp [RunParameters.set_stop_if_valid, hs, hconv, hfm, hlt]
          · intro ms' stop_dt' h1 h2
            injection h1 with h1
            subst h1
            rw [hfm] at h2
            injection h2 with h2
            subst h2
            refine ⟨?_, ?_, ?_⟩
            · simp [RunParameters.set_stop_if_valid, hs, hconv, hfm, hlt]
            · simp [RunParameters.set_stop_if_valid, hs, hconv, hfm, hlt]
            · intro h
              simp [RunParameters.set_stop_if_valid, hs, hconv, hfm, hlt]
          · intro e0 h1
            cases h1
          · intro ms' h1 h2 hns
            injection h1 with h1
            subst h1
            rw [hfm] at h2
            cases h2
          · intro e h
            simp [RunParameters.set_stop_if_valid, hs, hconv, hfm, hlt] at h
        · refine ⟨?_, ?_, ?_, ?_, ?_⟩
          · simp [RunParameters.set_stop_if_valid, hs, hconv, hfm, hlt]
          · intro ms' stop_dt' h1 h2
            injection h1 with h1
            subst h1
            rw [hfm] at h2
            injection h2 with h2
            subst h2
            refine ⟨?_, ?_, ?_⟩
            · simp [RunParameters.set_stop_if_valid, hs, hconv, hfm, hlt]
              omega
            · simp [RunParameters.set_stop_if_valid, hs, hconv, hfm, hlt]
            · intro h
              simp [RunParameters.set_stop_if_valid, hs, hconv, hfm, hlt] at h
          · intro e0 h1
            cases h1
          · intro ms' h1 h2 hns
            injection h1 with h1
            subst h1
            rw [hfm] at h2
            cases h2
          · intro e h
            simp [RunParameters.set_stop_if_valid, hs, hconv, hfm, hlt]

/-- Witness for the amended C7: a first stop at 1000 ms succeeds on
C7params and sets collect_until; a second stop on the result fails with
StopCommandBeforeStartCommand; a stop time of 2^63 ms fails the integer
conversion; a stop time of 9 * 10^15 ms (within u64 and i64 but past
chrono's maximum) fails with IntOutOfRangeForDateTime. -/
theorem C7_amended_set_stop_semantics_witness :
    (C7params.set_stop_if_valid 1000 5).1 = .ok () ∧
    (C7params.set_stop_if_valid 1000 5).2.run_stop_parameters =
      some ({ collect_until := 1000000000, last_modified := 5 } :
        RunStopParameters) ∧
    (((C7params.set_stop_if_valid 1000 5).2.set_stop_if_valid 2000 6).1 =
      .error .StopCommandBeforeStartCommand) ∧
    (C7params.set_stop_if_valid (2 ^ 63) 7).1 = .error .TryFromInt ∧
    (C7params.set_stop_if_valid 9000000000000000 8).1 =
      .error .IntOutOfRangeForDateTime := by
  have h := C7_amended_set_stop_semantics C7params 1000 5
  have h3 := C7_amended_set_stop_semantics C7params (2 ^ 63) 7
  have h4 := C7_amended_set_stop_semantics C7params 9000000000000000 8
  have hok := ((h.2.1 1000 1000000000 rfl (by decide)).2.1).mpr
    (by constructor <;> decide)
  refine ⟨hok, ?_, ?_, ?_, ?_⟩
  · have hst := (h.2.1 1000 1000000000 rfl (by decide)).2.2 hok
    rw [hst]
  · have h2 := C7_amended_set_stop_semantics
      (C7params.set_stop_if_valid 1000 5).2 2000 6
    refine h2.1.mpr ?_
    have hst := (h.2.1 1000 1000000000 rfl (by decide)).2.2 hok
    rw [hst]
    rfl
  · exact (h3.2.2.1 .TryFromInt rfl).1 rfl
  · exact h4.2.2.2.1 9000000000000000 rfl (by decide) rfl

end NexusWriter

namespace NexusWriter

/-- RunParameters::is_message_timestamp_not_after_end: when a stop is set,
tests timestamp < collect_until; with no stop it returns true. -/
def RunParameters.is_message_timestamp_not_after_end (p : RunParameters)
    (timestamp : Int) : Bool :=
  match p.run_stop_parameters with
  | some params => decide (timestamp < params.collect_until)
  | none => true

/-- RunParameters::is_message_timestamp_within_range: strictly after
collect_from and, via is_message_timestamp_not_after_end, strictly before
a set collect_until. -/
def RunParameters.is_message_timestamp_within_range (p : RunParameters)
    (timestamp : Int) : Bool :=
  if p.collect_from < timestamp then
    p.is_message_timestamp_not_after_end timestamp
  else
    false

/-- Run::is_message_timestamp_before_end of
src/nexus-writer/src/run_engine/run/mod.rs: forwards to the parameters'
is_message_timestamp_not_after_end (the Run wrapper's other state is
irrelevant to the test). -/
def RunParameters.is_message_timestamp_before_end (p : RunParameters)
    (timestamp : Int) : Bool :=
  p.is_message_timestamp_not_after_end timestamp

/-- FindValidRun::find_run_containing of
src/nexus-writer/src/run_engine/engine.rs, used for frame event lists and
run logs: the first run in the cache whose range contains the timestamp. -/
def find_run_containing (runs : List RunParameters) (timestamp : Int) :
    Option RunParameters :=
  runs.find? (fun run => run.is_message_timestamp_within_range timestamp)

/-- FindValidRun::find_run_not_ending_before of
src/nexus-writer/src/run_engine/engine.rs, used for sample-environment
logs and alarms: the first run not ending before the timestamp. -/
def find_run_not_ending_before (runs : List RunParameters) (timestamp : Int) :
    Option RunParameters :=
  runs.find? (fun run => run.is_message_timestamp_before_end timestamp)

/-- C8: a frame event list or run log matches a run iff collect_from < t
and, when a stop is set, t < collect_until; a sample-environment log or
alarm matches under the weaker test that only requires t < collect_until
when a stop is set, and always matches a run with no stop; the engine
routes the former through find_run_containing and the latter through
find_run_not_ending_before, so any run they return satisfies the
respective test. -/
theorem C8_message_run_matching (p : RunParameters) (t : Int) :
    (p.is_message_timestamp_within_range t = true ↔
      (p.collect_from < t ∧
        ∀ rs, p.run_stop_parameters = some rs → t < rs.collect_until)) ∧
    (p.is_message_timestamp_before_end t = true ↔
      (∀ rs, p.run_stop_parameters = some rs → t < rs.collect_until)) ∧
    (p.run_stop_parameters = none → p.is_message_timestamp_before_end t = true) ∧
    (∀ (runs : List RunParameters) (r : RunParameters),
      find_run_containing runs t = some r →
      r.is_message_timestamp_within_range t = true) ∧
    (∀ (runs : List RunParameters) (r : RunParameters),
      find_run_not_ending_before runs t = some r →
      r.is_message_timestamp_before_end t = true) := by
  have hend : p.is_message_timestamp_not_after_end t = true ↔
      (∀ rs, p.run_stop_parameters = some rs → t < rs.collect_until) := by
    unfold RunParameters.is_message_timestamp_not_after_end
    rcases hrs : p.run_stop_parameters with _ | rs
    · simp
    · simp only [decide_eq_true_eq]
      constructor
      · intro hlt rs' hrs'
        injection hrs' with hrs'
        subst hrs'
        exact hlt
      · intro hall
        exact hall rs rfl
  refine ⟨?_, hend, ?_, ?_, ?_⟩
  · unfold RunParameters.is_message_timestamp_within_range
    by_cases hc : p.collect_from < t
    · simp only [if_pos hc, hend]
      simp [hc]
    · simp only [if_neg hc]
      simp [hc]
  · intro hnone
    unfold RunParameters.is_message_timestamp_before_end
      RunParameters.is_message_timestamp_not_after_end
    rw [hnone]
  · intro runs r hfind
    unfold find_run_containing at hfind
    exact List.find?_some
      (p := fun (run : RunParameters) => run.is_message_timestamp_within_range t) hfind
  · intro runs r hfind
    unfold find_run_not_ending_before at hfind
    exact List.find?_some
      (p := fun (run : RunParameters) => run.is_message_timestamp_before_end t) hfind

/-- A run with a stop set at 100 (collect_from 10). -/
def C8run : RunParameters :=
  { collect_from := 10, run_stop_parameters := some ⟨100, 0⟩, run_name := "r",
    periods := [], file_name := "f" }

/-- Witness for C8: timestamp 50 is within C8run's range, matches the
weaker test too, and is found by both engine searches on [C8run]. -/
theorem C8_message_run_matching_witness :
    C8run.is_message_timestamp_within_range 50 = true ∧
    C8run.is_message_timestamp_before_end 50 = true ∧
    find_run_containing [C8run] 50 = some C8run := by
  have h := C8_message_run_matching C8run 50
  have hw : C8run.is_message_timestamp_within_range 50 = true := by
    refine h.1.mpr ⟨by decide, ?_⟩
    intro rs hrs
    injection hrs with hrs
    subst hrs
    decide
  refine ⟨hw, ?_, ?_⟩
  · refine h.2.1.mpr ?_
    intro rs hrs
    injection hrs with hrs
    subst hrs
    decide
  · unfold find_run_containing
    exact List.find?_cons_of_pos
      (p := fun (run : RunParameters) => run.is_message_timestamp_within_range 50) [] hw

end NexusWriter

namespace TraceToEvents

/-!
The trace-to-events embedding.  The sample values and times are Real (f64)
in the source; for the concrete claim below (unit sample time, integer
samples, integer threshold) every f64 computation is exact, so they are
modelled over Int.
-/

/-- struct ThresholdDuration of the fixed-threshold discriminator
(threshold on the trace value, hold duration and cool-off in samples). -/
structure ThresholdDuration where
  threshold : Int
  duration : Int
  cool_off : Int
  deriving DecidableEq, Repr

/-- Modelled from the spec: the state of the ThresholdDetector of
src/trace-to-events/src/pulse_detection/threshold_detector.rs (file absent
from the sources); spec section 4.2: "States: Armed,
CrossingHeld(entered_at, max_value), CoolOff(until)". -/
inductive DetectorState where
  | Armed
  | CrossingHeld (entered_at : Int) (max_value : Int)
  | CoolOff (until_time : Int)
  deriving DecidableEq, Repr

/-- Modelled from the spec: one signal step of the ThresholdDetector (file
absent from the sources); spec section 4.2: in Armed, an input at or above
the threshold enters CrossingHeld; in CrossingHeld the maximum is tracked,
a drop below the threshold before the hold duration re-arms without
emission, and once held for the duration the event
(entered_at, max_value) is emitted and the detector cools off until
now + cool_off; in CoolOff detection is suppressed until the time reaches
the cool-off boundary, after which the sample is processed as if Armed. -/
def thresholdSignal (trigger : ThresholdDuration) (st : DetectorState)
    (time value : Int) : Option (Int × Int) × DetectorState :=
  match st with
  | .Armed =>
    if value ≥ trigger.threshold then
      (none, .CrossingHeld time value)
    else
      (none, .Armed)
  | .CrossingHeld entered_at max_value =>
    let m := max max_value value
    if time - entered_at ≥ trigger.duration then
      (some (entered_at, m), .CoolOff (time + trigger.cool_off))
    else if value < trigger.threshold then
      (none, .Armed)
    else
      (none, .CrossingHeld entered_at m)
  | .CoolOff until_time =>
    if time ≥ until_time then
      if value ≥ trigger.threshold then
        (none, .CrossingHeld time value)
      else
        (none, .Armed)
    else
      (none, .CoolOff until_time)

/-- Modelled from the spec: feeding a (time, value) sequence through the
ThresholdDetector and collecting the emitted events in order.  The spec's
terminal finish() "may emit one final event if mid-hold"; the input of the
claim below ends in the Armed state, where finish() emits nothing, so the
end-of-input behaviour does not affect it and none is emitted. -/
def runThresholdDetector (trigger : ThresholdDuration) (st : DetectorState) :
    List (Int × Int) → List (Int × Int)
  | [] => []
  | (t, v) :: rest =>
    match thresholdSignal trigger st t v with
    | (some e, st') => e :: runThresholdDetector trigger st' rest
    | (none, st') => runThresholdDetector trigger st' rest

/-- enum Polarity of src/trace-to-events/src/parameters.rs. -/
inductive Polarity where
  | Positive
  | Negative
  deriving DecidableEq, Repr

/-- struct FixedThresholdDiscriminatorParameters of
src/trace-to-events/src/parameters.rs. -/
structure FixedThresholdDiscriminatorParameters where
  threshold : Int
  duration : Int
  cool_off : Int
  deriving DecidableEq, Repr

/-- find_fixed_threshold_events of src/trace-to-events/src/channels.rs:
maps sample i with raw value v to (i * sample_time, sign * (v − baseline)),
runs the threshold detector over the sequence, and collects the event
times (cast to the unsigned Time type) and pulse heights (cast to the
unsigned Intensity type). -/
def find_fixed_threshold_events (voltage : List Int) (sample_time : Int)
    (polarity : Polarity) (baseline : Int)
    (parameters : FixedThresholdDiscriminatorParameters) :
    List Nat × List Nat :=
  let sign : Int := match polarity with
    | .Positive => 1
    | .Negative => -1
  let raw := voltage.enum.map
    (fun p => ((p.1 : Int) * sample_time, sign * (p.2 - baseline)))
  let pulses := runThresholdDetector
    ⟨parameters.threshold, parameters.duration, parameters.cool_off⟩
    .Armed raw
  (pulses.map (fun p => p.1.toNat), pulses.map (fun p => p.2.toNat))

/-- The event-list assembly of process() in
src/trace-to-events/src/processing.rs for a message holding one channel:
the channel vector holds the channel id repeated once per event, and the
time and voltage vectors are the per-channel results. -/
def process_single_channel (channel : Nat) (voltage : List Int)
    (sample_time : Int) (polarity : Polarity) (baseline : Int)
    (parameters : FixedThresholdDiscriminatorParameters) :
    List Nat × List Nat × List Nat :=
  let events := find_fixed_threshold_events voltage sample_time polarity
    baseline parameters
  (events.1, events.2, List.replicate events.1.length channel)

/-- C9: the spec's scenario S5: the trace [0,1,2,1,0,1,2,1,8,0,2,8,3,1,2]
with threshold 5, duration 1, cool_off 0, baseline 0, positive polarity
and unit sample time yields exactly the digitiser event list with times
[8, 11], intensities [8, 8] and channels [0, 0]. -/
theorem C9_fixed_threshold_scenario :
    process_single_channel 0 [0, 1, 2, 1, 0, 1, 2, 1, 8, 0, 2, 8, 3, 1, 2] 1
      .Positive 0 ⟨5, 1, 0⟩ = ([8, 11], [8, 8], [0, 0]) := by
  rfl

end TraceToEvents
